import Mathlib

/-!
Shallow embedding of the recommendation service of the music-streaming
backend (source file `src/services/recommendations.py`, data model in
`src/db/models.py`).

Modelling conventions:
- timestamps are integers counting seconds; the wall clock `_now_utc()` is
  passed explicitly as a `now : Int` argument;
- the relational store is a record of row lists; `SELECT ... ORDER BY k DESC`
  is embedded as a stable insertion sort on the stored row order, which is
  one valid execution of the query (the relational semantics allowing any
  tie order appears further below for the determinism analysis);
- the columns are typed as in `models.py`: `Track.artist_id` is a non-null
  column, `Track.genre` is nullable, `PlaybackHistory.track_id` is non-null.
-/

namespace MusicReco

/-- Row of the `tracks` table (the columns the recommendation service reads). -/
structure Track where
  id : Nat
  artist_id : Nat
  genre : Option String
  created_at : Int
  deriving DecidableEq

/-- Row of the `playback_history` table. -/
structure PlaybackHistory where
  id : Nat
  user_id : Nat
  track_id : Nat
  played_at : Int
  deriving DecidableEq

/-- Row of the `recommendations_cache` table.  The JSON `recommendations`
payload is modelled as `Option (List Nat)`: `some ids` stands for a dict
carrying the `track_ids` key, `none` for a non-dict payload or a dict without
that key (both of which the service reads back as the empty list, line 163 of
the source). -/
structure CacheRow where
  user_id : Nat
  recommendations : Option (List Nat)
  generated_at : Int
  deriving DecidableEq

/-- The database state the service sees. -/
structure DB where
  tracks : List Track
  history : List PlaybackHistory
  cache : List CacheRow
  deriving DecidableEq

/-- Source constant `DEFAULT_RECO_LIMIT = 25`. -/
def DEFAULT_RECO_LIMIT : Nat := 25

/-- Source constant `CACHE_TTL_MINUTES = 60`. -/
def CACHE_TTL_MINUTES : Int := 60

/-- Python `timedelta(minutes=m)` expressed in seconds. -/
def minutesToSeconds (m : Int) : Int := m * 60

/-- Python `timedelta(days=d)` expressed in seconds. -/
def daysToSeconds (d : Int) : Int := d * 86400

/-- Source `_is_cache_fresh`: the cached row is within the TTL.  The wall
clock is the explicit `now` argument. -/
def is_cache_fresh (now generated_at : Int) : Bool :=
  now - generated_at ≤ minutesToSeconds CACHE_TTL_MINUTES

/-- Embedding of `SELECT ... ORDER BY key DESC`: a stable sort of the stored
row order, non-increasing in `key`.  This is one valid execution of the SQL
ordering (SQL fixes nothing about rows with equal keys). -/
def sortByKeyDesc {α : Type} (key : α → Int) (l : List α) : List α :=
  l.insertionSort (fun a b => key b ≤ key a)

/-- The seen-set deduplication loop the source uses (first occurrence wins,
order preserved); `seen` accumulates the values already kept. -/
def dedupKeepFirst {α : Type} [DecidableEq α] : List α → List α → List α
  | _, [] => []
  | seen, x :: xs =>
    if x ∈ seen then dedupKeepFirst seen xs
    else x :: dedupKeepFirst (x :: seen) xs

/-- Embedding of `GROUP BY k ... ORDER BY COUNT(*) DESC LIMIT n`: group keys
enumerated in first-occurrence order, stably sorted by their row count
descending, truncated to `n`. -/
def topCounted {α : Type} [DecidableEq α] (rows : List α) (n : Nat) : List α :=
  (sortByKeyDesc (fun k => (rows.count k : Int)) (dedupKeepFirst [] rows)).take n

/-- The rows of the user within the lookback window, inner-joined to their
track on `Track.id == PlaybackHistory.track_id` (`Track.id` is the primary
key, so `find?` returns the unique matching track; events whose track was
deleted produce no joined row). -/
def recent_joined (db : DB) (now : Int) (user_id : Nat) (recent_days : Int) :
    List Track :=
  (db.history.filter
      (fun e => e.user_id == user_id && now - daysToSeconds recent_days ≤ e.played_at)).filterMap
    (fun e => db.tracks.find? (fun t => t.id == e.track_id))

/-- The top-artists query of `_fetch_recent_user_preferences`.  The source
drops `None` artist ids after the limit, but `tracks.artist_id` is a non-null
column, so that filter keeps every row and is omitted here. -/
def artists_query (db : DB) (now : Int) (user_id : Nat) (recent_days : Int)
    (max_seeds : Nat) : List Nat :=
  topCounted ((recent_joined db now user_id recent_days).map Track.artist_id) max_seeds

/-- The top-genres query of `_fetch_recent_user_preferences`: null genres are
excluded by the SQL `is_not(None)` before grouping, and the Python
`if row[0]` comprehension additionally drops the empty string after the
limit. -/
def genres_query (db : DB) (now : Int) (user_id : Nat) (recent_days : Int)
    (max_seeds : Nat) : List String :=
  (topCounted ((recent_joined db now user_id recent_days).filterMap Track.genre) max_seeds).filter
    (fun g => !(g == ""))

/-- Source `_fetch_recent_user_preferences`. -/
def fetch_recent_user_preferences (db : DB) (now : Int) (user_id : Nat)
    (recent_days : Int := 30) (max_seeds : Nat := 5) : List Nat × List String :=
  (artists_query db now user_id recent_days max_seeds,
   genres_query db now user_id recent_days max_seeds)

/-- Source `_fetch_popular_tracks`: all history rows grouped by track id,
ordered by play count descending, oversampled to `2 * limit`.  The column
`track_id` is non-null, so the `is not None` post-filter of the source keeps
every row and is omitted here. -/
def fetch_popular_tracks (db : DB) (limit : Nat) : List Nat :=
  topCounted (db.history.map PlaybackHistory.track_id) (limit * 2)

/-- The artist-match query of `_fetch_seeded_tracks` (executed only when
`artist_ids` is non-empty). -/
def seeded_artists_query (db : DB) (artist_ids : List Nat) (limit : Nat) :
    List Nat :=
  ((sortByKeyDesc Track.created_at
      (db.tracks.filter (fun t => t.artist_id ∈ artist_ids))).take limit).map Track.id

/-- The genre-match query of `_fetch_seeded_tracks` (executed only when
`genres` is non-empty): `lower(genre)` of a null genre is null and matches
nothing. -/
def seeded_genres_query (db : DB) (genres : List String) (limit : Nat) :
    List Nat :=
  ((sortByKeyDesc Track.created_at
      (db.tracks.filter (fun t =>
        match t.genre with
        | some g => g.toLower ∈ genres.map String.toLower
        | none => false))).take limit).map Track.id

/-- Source `_fetch_seeded_tracks`: artist matches, then genre matches, the
concatenation deduplicated keeping first occurrences, clipped to `limit`. -/
def fetch_seeded_tracks (db : DB) (artist_ids : List Nat) (genres : List String)
    (limit : Nat) : List Nat :=
  let byArtist := if artist_ids.isEmpty then [] else seeded_artists_query db artist_ids limit
  let byGenre := if genres.isEmpty then [] else seeded_genres_query db genres limit
  (dedupKeepFirst [] (byArtist ++ byGenre)).take limit

/-- Source `_filter_existing_tracks`: keep exactly the ids present in the
`tracks` table, preserving order and multiplicity (the early return of the
source on an empty input yields the same value). -/
def filter_existing_tracks (db : DB) (track_ids : List Nat) : List Nat :=
  track_ids.filter (fun tid => db.tracks.any (fun t => t.id == tid))

/-- The `tracks_map` reload of the source: fetch the `Track` rows of `ids` and
emit them in the given id order, silently skipping ids without a row. -/
def load_tracks_ordered (db : DB) (ids : List Nat) : List Track :=
  ids.filterMap (fun tid => db.tracks.find? (fun t => t.id == tid))

/-- One `for tid in source_list:` blending loop of `compute_recommendations`:
append ids not yet present (the `seen` set of the source always holds exactly
the members of `combined`, so membership in the accumulator is the same
test), and break once `limit` is reached; the source checks the break
condition after every iteration, also when the id was a duplicate. -/
def blendLoop (limit : Nat) (acc : List Nat) : List Nat → List Nat
  | [] => acc
  | tid :: rest =>
    let acc2 := if tid ∈ acc then acc else acc ++ [tid]
    if limit ≤ acc2.length then acc2 else blendLoop limit acc2 rest

/-- The last-resort fallback query of `compute_recommendations`: most
recently created tracks, limited to `limit` (executed only when the blend is
still underfilled). -/
def recent_query (db : DB) (limit : Nat) : List Nat :=
  ((sortByKeyDesc Track.created_at db.tracks).take limit).map Track.id

/-- The cache upsert at the end of `compute_recommendations`: mutate the row
the initial `SELECT` returned (the first row of the user) in place, or insert
a new row when none exists. -/
def upsert_cache (rows : List CacheRow) (user_id : Nat) (ids : List Nat)
    (now : Int) : List CacheRow :=
  match rows with
  | [] => [⟨user_id, some ids, now⟩]
  | r :: rest =>
    if r.user_id == user_id then
      { r with recommendations := some ids, generated_at := now } :: rest
    else r :: upsert_cache rest user_id ids now

/-- The cache-hit branch of `compute_recommendations` (lines 157-174):
`some tracks` when a fresh usable cache row answers the call, `none` when
control falls through to recomputation — including the case where the cached
ids filter down to the empty list. -/
def cache_hit_result (db : DB) (now : Int) (user_id : Nat) (limit : Nat)
    (force_refresh : Bool) : Option (List Track) :=
  match db.cache.find? (fun c => c.user_id == user_id) with
  | none => none
  | some c =>
    if !force_refresh && is_cache_fresh now c.generated_at then
      let ids := (filter_existing_tracks db (c.recommendations.getD [])).take limit
      if ids.isEmpty then none
      else some (load_tracks_ordered db ids)
    else none

/-- The seeded source of the recompute branch: seeds derived from the recent
history feed `_fetch_seeded_tracks`. -/
def seeded_ids (db : DB) (now : Int) (user_id limit : Nat) : List Nat :=
  fetch_seeded_tracks db (fetch_recent_user_preferences db now user_id).1
    (fetch_recent_user_preferences db now user_id).2 limit

/-- The blending loops of `compute_recommendations` (lines 183-211): seeded
ids first, then — only while still underfilled — popular ids, then the
recent-tracks fallback. -/
def blended_ids (db : DB) (now : Int) (user_id limit : Nat) : List Nat :=
  let c1 := blendLoop limit [] (seeded_ids db now user_id limit)
  let c2 := if c1.length < limit then blendLoop limit c1 (fetch_popular_tracks db limit) else c1
  if c2.length < limit then blendLoop limit c2 (recent_query db limit) else c2

/-- Line 213 of the source: the blended ids filtered against the live catalog
and clipped to `limit`. -/
def combined_ids (db : DB) (now : Int) (user_id limit : Nat) : List Nat :=
  (filter_existing_tracks db (blended_ids db now user_id limit)).take limit

/-- The recompute branch of `compute_recommendations` (lines 176-230): derive
seeds, fetch the three candidate sources, blend with deduplication, filter
against the live catalog, clip, upsert the cache row, and reload the
surviving tracks in order. -/
def recompute (db : DB) (now : Int) (user_id : Nat) (limit : Nat) :
    List Track × DB :=
  (load_tracks_ordered db (combined_ids db now user_id limit),
   { db with cache := upsert_cache db.cache user_id (combined_ids db now user_id limit) now })

/-- Source `compute_recommendations`: the returned track list together with
the post-call database state (the cache row the call may have upserted). -/
def compute_recommendations (db : DB) (now : Int) (user_id : Nat)
    (limit : Nat := DEFAULT_RECO_LIMIT) (force_refresh : Bool := false) :
    List Track × DB :=
  match cache_hit_result db now user_id limit force_refresh with
  | some tracks => (tracks, db)
  | none => recompute db now user_id limit

/-! ### General lemmas about the embedding -/

/-- The reload step returns at most one track per requested id. -/
theorem load_tracks_ordered_length_le (db : DB) (ids : List Nat) :
    (load_tracks_ordered db ids).length ≤ ids.length :=
  List.length_filterMap_le _ _

/-- Every track the reload step returns is a row of the tracks table. -/
theorem mem_tracks_of_mem_load (db : DB) (ids : List Nat) :
    ∀ t ∈ load_tracks_ordered db ids, t ∈ db.tracks := by
  intro t ht
  rcases List.mem_filterMap.mp ht with ⟨tid, _, hf⟩
  exact List.mem_of_find?_eq_some hf

/-- The clipped id list of the recompute branch respects the limit. -/
theorem combined_ids_length_le (db : DB) (now : Int) (user_id limit : Nat) :
    (combined_ids db now user_id limit).length ≤ limit := by
  unfold combined_ids
  exact List.length_take_le ..

/-- Characterisation of a cache hit: the branch returns `some tracks` exactly
when a row of the user was found, the call is not forced, the row is fresh,
and the existence-filtered clipped cached ids are non-empty; `tracks` is then
their reload. -/
theorem cache_hit_result_spec (db : DB) (now : Int) (user_id limit : Nat)
    (force_refresh : Bool) (tracks : List Track)
    (h : cache_hit_result db now user_id limit force_refresh = some tracks) :
    ∃ c, db.cache.find? (fun r => r.user_id == user_id) = some c ∧
      force_refresh = false ∧
      is_cache_fresh now c.generated_at = true ∧
      ((filter_existing_tracks db (c.recommendations.getD [])).take limit).isEmpty = false ∧
      tracks = load_tracks_ordered db
        ((filter_existing_tracks db (c.recommendations.getD [])).take limit) := by
  unfold cache_hit_result at h
  split at h
  · exact absurd h (by simp)
  next c hfind =>
    split at h
    next hfresh =>
      dsimp only at h
      split at h
      next hempty => exact absurd h (by simp)
      next hempty =>
        refine ⟨c, hfind, ?_, ?_, by simpa using hempty, (Option.some.inj h).symm⟩
        · cases force_refresh <;> simp_all
        · cases hf : is_cache_fresh now c.generated_at <;> simp_all
    next hfresh => exact absurd h (by simp)

/-! ### Witness databases for concrete instantiations -/

/-- Track 1: artist 1, no genre, created at time 10. -/
def wTrack1 : Track := ⟨1, 1, none, 10⟩

/-- Track 2: artist 2, no genre, created at time 5. -/
def wTrack2 : Track := ⟨2, 2, none, 5⟩

/-- Two tracks; user 9 played track 1 once, user 8 played track 2 twice, all
recently; no cache row. -/
def wDB1 : DB :=
  { tracks := [wTrack1, wTrack2],
    history := [⟨1, 9, 1, 0⟩, ⟨2, 8, 2, 0⟩, ⟨3, 8, 2, 0⟩],
    cache := [] }

/-! ### Claim theorems -/

/-- C1: for every database state, user id, and limit at least one, the list
returned by `compute_recommendations` has length at most `limit`, on both the
cache-hit path and the recompute path (the `force_refresh` flag and the clock
are universally quantified, so both paths are covered). -/
theorem C1_limit_bound (db : DB) (now : Int) (user_id limit : Nat)
    (force_refresh : Bool) (hlim : 1 ≤ limit) :
    (compute_recommendations db now user_id limit force_refresh).1.length ≤ limit := by
  unfold compute_recommendations
  cases hco : cache_hit_result db now user_id limit force_refresh with
  | none =>
    exact le_trans (load_tracks_ordered_length_le _ _) (combined_ids_length_le ..)
  | some tracks =>
    rcases cache_hit_result_spec _ _ _ _ _ _ hco with ⟨c, _, _, _, _, htr⟩
    subst htr
    exact le_trans (load_tracks_ordered_length_le _ _) (List.length_take_le ..)

/-- Witness for C1: a concrete call on `wDB1` with limit 2. -/
theorem C1_limit_bound_witness :
    (compute_recommendations wDB1 0 9 2 false).1.length ≤ 2 :=
  C1_limit_bound wDB1 0 9 2 false (by decide)

/-- C2: every track returned by `compute_recommendations` is a row of the
track catalog at call time, on every path; ids without a catalog row (also
ids of a cached row whose tracks were deleted) are dropped by the
existence filter or by the ordered reload, and the function is total, so no
error is ever surfaced for them. -/
theorem C2_existence (db : DB) (now : Int) (user_id limit : Nat)
    (force_refresh : Bool) :
    ∀ t ∈ (compute_recommendations db now user_id limit force_refresh).1,
      t ∈ db.tracks := by
  intro t ht
  unfold compute_recommendations at ht
  cases hco : cache_hit_result db now user_id limit force_refresh with
  | none =>
    rw [hco] at ht
    exact mem_tracks_of_mem_load _ _ t ht
  | some tracks =>
    rw [hco] at ht
    rcases cache_hit_result_spec _ _ _ _ _ _ hco with ⟨c, _, _, _, _, htr⟩
    subst htr
    exact mem_tracks_of_mem_load _ _ t ht

/-- Witness for C2: on `wDB1`, the concrete call returns `wTrack1`, which is
in the catalog. -/
theorem C2_existence_witness : wTrack1 ∈ wDB1.tracks :=
  C2_existence wDB1 0 9 2 false wTrack1 (by decide)

/-! ### Lemmas about the blending loop -/

/-- The blending loop only appends: the accumulator is a prefix of the
result, and every appended id comes from the source list and was not already
accumulated. -/
theorem blendLoop_append (limit : Nat) (xs : List Nat) :
    ∀ acc, ∃ ex, blendLoop limit acc xs = acc ++ ex ∧
      ∀ e ∈ ex, e ∈ xs ∧ e ∉ acc := by
  induction xs with
  | nil => intro acc; exact ⟨[], by simp [blendLoop]⟩
  | cons tid rest ih =>
    intro acc
    unfold blendLoop
    dsimp only
    by_cases hmem : tid ∈ acc
    · simp only [if_pos hmem]
      split
      · exact ⟨[], by simp⟩
      · rcases ih acc with ⟨ex, hb, hex⟩
        exact ⟨ex, hb, fun e he =>
          ⟨List.mem_cons_of_mem _ (hex e he).1, (hex e he).2⟩⟩
    · simp only [if_neg hmem]
      split
      · exact ⟨[tid], rfl, by simp [hmem]⟩
      · rcases ih (acc ++ [tid]) with ⟨ex, hb, hex⟩
        refine ⟨tid :: ex, hb.trans (by simp), ?_⟩
        intro e he
        rcases List.mem_cons.mp he with rfl | he2
        · exact ⟨List.mem_cons_self _ _, hmem⟩
        · exact ⟨List.mem_cons_of_mem _ (hex e he2).1,
            fun hc => (hex e he2).2 (List.mem_append_left _ hc)⟩

/-- When the loop ends below the limit it never broke early, so every id of
the source list made it into the result. -/
theorem blendLoop_complete (limit : Nat) (xs : List Nat) :
    ∀ acc, (blendLoop limit acc xs).length < limit →
      ∀ x ∈ xs, x ∈ blendLoop limit acc xs := by
  induction xs with
  | nil => intro acc _ x hx; cases hx
  | cons tid rest ih =>
    intro acc h x hx
    rw [blendLoop] at h ⊢
    by_cases hmem : tid ∈ acc
    · simp only [if_pos hmem] at h ⊢
      split at h
      next hbreak => split <;> omega
      next hbreak =>
        simp only [if_neg hbreak]
        rcases List.mem_cons.mp hx with rfl | hx2
        · rcases blendLoop_append limit rest acc with ⟨ex, hb, _⟩
          rw [hb]; exact List.mem_append_left _ hmem
        · exact ih acc h x hx2
    · simp only [if_neg hmem] at h ⊢
      split at h
      next hbreak => split <;> omega
      next hbreak =>
        simp only [if_neg hbreak]
        rcases List.mem_cons.mp hx with rfl | hx2
        · rcases blendLoop_append limit rest (acc ++ [x]) with ⟨ex, hb, _⟩
          rw [hb]
          exact List.mem_append_left _ (List.mem_append_right _ (List.mem_singleton.mpr rfl))
        · exact ih (acc ++ [tid]) h x hx2

/-- The blending loop preserves freedom from duplicates. -/
theorem blendLoop_nodup (limit : Nat) (xs : List Nat) :
    ∀ acc, acc.Nodup → (blendLoop limit acc xs).Nodup := by
  induction xs with
  | nil => intro acc h; simpa [blendLoop]
  | cons tid rest ih =>
    intro acc h
    rw [blendLoop]
    by_cases hmem : tid ∈ acc
    · simp only [if_pos hmem]
      split
      · exact h
      · exact ih acc h
    · simp only [if_neg hmem]
      have h2 : (acc ++ [tid]).Nodup := by
        simp [List.nodup_append, h, hmem]
      split
      · exact h2
      · exact ih _ h2

/-- Ids accumulated from the empty accumulator all come from the source. -/
theorem blendLoop_subset (limit : Nat) (xs : List Nat) :
    ∀ x ∈ blendLoop limit [] xs, x ∈ xs := by
  intro x hx
  rcases blendLoop_append limit xs [] with ⟨ex, hb, hex⟩
  rw [hb] at hx
  rcases List.mem_append.mp hx with h | h
  · cases h
  · exact (hex x h).1

/-! ### Duplicate-freedom and id-reload lemmas -/

/-- The blended id list is duplicate-free. -/
theorem blended_ids_nodup (db : DB) (now : Int) (user_id limit : Nat) :
    (blended_ids db now user_id limit).Nodup := by
  have h1 : (blendLoop limit [] (seeded_ids db now user_id limit)).Nodup :=
    blendLoop_nodup _ _ _ List.nodup_nil
  unfold blended_ids
  dsimp only
  split <;> (try split) <;>
    first
      | exact blendLoop_nodup _ _ _ (blendLoop_nodup _ _ _ h1)
      | exact blendLoop_nodup _ _ _ h1
      | exact h1

/-- The clipped, existence-filtered id list is duplicate-free. -/
theorem combined_ids_nodup (db : DB) (now : Int) (user_id limit : Nat) :
    (combined_ids db now user_id limit).Nodup :=
  List.Nodup.sublist (List.take_sublist _ _)
    ((blended_ids_nodup db now user_id limit).filter _)

/-- Reloading ids that all exist in the catalog yields tracks whose ids are
exactly the requested ids, in the requested order. -/
theorem map_id_load_tracks (db : DB) (ids : List Nat)
    (h : ∀ tid ∈ ids, (db.tracks.any (fun t => t.id == tid)) = true) :
    (load_tracks_ordered db ids).map Track.id = ids := by
  induction ids with
  | nil => rfl
  | cons tid rest ih =>
    have hany := h tid (List.mem_cons_self _ _)
    rcases List.any_eq_true.mp hany with ⟨t, htmem, htid⟩
    have hs : ∃ u, db.tracks.find? (fun r => r.id == tid) = some u :=
      Option.isSome_iff_exists.mp (List.find?_isSome.mpr ⟨t, htmem, htid⟩)
    rcases hs with ⟨u, hu⟩
    have huid : u.id = tid := by simpa using List.find?_some hu
    have ih2 := ih (fun x hx => h x (List.mem_cons_of_mem _ hx))
    simp only [load_tracks_ordered, List.filterMap_cons, hu, List.map_cons, huid] at ih2 ⊢
    rw [ih2]

/-- Members of the clipped existence filter pass the existence test. -/
theorem take_filter_existing_all_exist (db : DB) (l : List Nat) (n : Nat) :
    ∀ tid ∈ (filter_existing_tracks db l).take n,
      (db.tracks.any (fun t => t.id == tid)) = true := by
  intro tid h
  have h2 : tid ∈ filter_existing_tracks db l := List.mem_of_mem_take h
  unfold filter_existing_tracks at h2
  exact (List.mem_filter.mp h2).2

/-- On the recompute path the returned track ids are exactly the clipped,
existence-filtered blended ids, in order. -/
theorem recompute_fst_map_id (db : DB) (now : Int) (user_id limit : Nat) :
    ((recompute db now user_id limit).1).map Track.id =
      combined_ids db now user_id limit := by
  unfold recompute
  exact map_id_load_tracks _ _
    (fun tid h => take_filter_existing_all_exist db _ limit tid h)

/-! ### Cache invariants and upsert lemmas -/

/-- Every cached payload is duplicate-free.  This is the invariant the
service itself maintains: it holds of an empty cache and, by C3 below, is
preserved by every call, so it holds of any cache the service wrote. -/
def CacheNodup (db : DB) : Prop :=
  ∀ c ∈ db.cache, (c.recommendations.getD []).Nodup

/-- The unique-key constraint `uq_recommendations_user` of the cache table:
at most one row per user. -/
def CacheKeyUnique (db : DB) : Prop :=
  (db.cache.map CacheRow.user_id).Nodup

/-- Rows of the upserted cache are old rows or carry the new payload. -/
theorem mem_upsert_cache (rows : List CacheRow) (user_id : Nat)
    (ids : List Nat) (now : Int) :
    ∀ c ∈ upsert_cache rows user_id ids now,
      c ∈ rows ∨ c.recommendations = some ids := by
  induction rows with
  | nil =>
    intro c hc
    right
    rcases List.mem_singleton.mp hc with rfl
    rfl
  | cons r rest ih =>
    intro c hc
    unfold upsert_cache at hc
    split at hc
    · rcases List.mem_cons.mp hc with rfl | h2
      · right; rfl
      · left; exact List.mem_cons_of_mem _ h2
    · rcases List.mem_cons.mp hc with rfl | h2
      · left; exact List.mem_cons_self _ _
      · rcases ih c h2 with h | h
        · left; exact List.mem_cons_of_mem _ h
        · right; exact h

/-- The upserted cache answers the user lookup with the new payload. -/
theorem find?_upsert_cache (rows : List CacheRow) (user_id : Nat)
    (ids : List Nat) (now : Int) :
    (upsert_cache rows user_id ids now).find? (fun r => r.user_id == user_id) =
      some ⟨user_id, some ids, now⟩ := by
  induction rows with
  | nil => simp [upsert_cache]
  | cons r rest ih =>
    unfold upsert_cache
    split
    next heq =>
      have huid : r.user_id = user_id := by simpa using heq
      rw [List.find?_cons_of_pos _ (by simpa using heq)]
      cases r
      simp_all
    next heq =>
      rw [List.find?_cons_of_neg _ (by simpa using heq)]
      exact ih

/-- The upsert leaves the rows of every other user untouched. -/
theorem filter_other_upsert_cache (rows : List CacheRow) (user_id : Nat)
    (ids : List Nat) (now : Int) :
    (upsert_cache rows user_id ids now).filter (fun r => !(r.user_id == user_id)) =
      rows.filter (fun r => !(r.user_id == user_id)) := by
  induction rows with
  | nil => simp [upsert_cache]
  | cons r rest ih =>
    unfold upsert_cache
    split
    next heq => simp [List.filter_cons, heq]
    next heq =>
      have hne : (r.user_id == user_id) = false := by simpa using heq
      simp [List.filter_cons, hne, ih]

/-- Under the unique-key constraint, exactly one row of the user remains
after the upsert. -/
theorem filter_self_upsert_cache (rows : List CacheRow) (user_id : Nat)
    (ids : List Nat) (now : Int) (h : (rows.map CacheRow.user_id).Nodup) :
    ((upsert_cache rows user_id ids now).filter
      (fun r => r.user_id == user_id)).length = 1 := by
  induction rows with
  | nil => simp [upsert_cache]
  | cons r rest ih =>
    unfold upsert_cache
    split
    next heq =>
      have huid : r.user_id = user_id := by simpa using heq
      have hnotin : r.user_id ∉ rest.map CacheRow.user_id :=
        (List.nodup_cons.mp (by simpa using h)).1
      have hrest : rest.filter (fun r2 => r2.user_id == user_id) = [] := by
        rw [List.filter_eq_nil_iff]
        intro a ha
        simp only [beq_iff_eq]
        intro hc
        exact hnotin (by rw [huid, ← hc] at hnotin ⊢; exact List.mem_map_of_mem _ ha)
      simp [List.filter_cons, heq, hrest]
    next heq =>
      have hne : (r.user_id == user_id) = false := by simpa using heq
      simp only [List.filter_cons, hne]
      exact ih (List.nodup_cons.mp (by simpa using h)).2

/-- The upsert grows the cache only when the user had no row yet. -/
theorem length_upsert_cache (rows : List CacheRow) (user_id : Nat)
    (ids : List Nat) (now : Int) :
    (upsert_cache rows user_id ids now).length =
      (if (rows.find? (fun r => r.user_id == user_id)).isSome
       then rows.length else rows.length + 1) := by
  induction rows with
  | nil => simp [upsert_cache]
  | cons r rest ih =>
    unfold upsert_cache
    split
    next heq =>
      rw [show List.find? (fun r2 => r2.user_id == user_id) (r :: rest) = some r from
        List.find?_cons_of_pos _ heq]
      simp
    next heq =>
      have hne : (r.user_id == user_id) = false := by simpa using heq
      rw [show List.find? (fun r2 => r2.user_id == user_id) (r :: rest) =
          List.find? (fun r2 => r2.user_id == user_id) rest from
        List.find?_cons_of_neg _ (by simp [hne])]
      simp only [List.length_cons, ih]
      split <;> omega

/-- C3: the ids of the returned tracks are pairwise distinct, on the
recompute path and on the cache-hit path.  The cache-hit side reads a row
previously written by `compute_recommendations` itself; this is expressed by
the invariant `CacheNodup` (all cached payloads duplicate-free), which holds
of the empty cache and — second conjunct — is preserved by every call, so it
holds of every cache state the service itself produced. -/
theorem C3_no_duplicates (db : DB) (now : Int) (user_id limit : Nat)
    (force_refresh : Bool) (hinv : CacheNodup db) :
    ((compute_recommendations db now user_id limit force_refresh).1.map Track.id).Nodup ∧
      CacheNodup (compute_recommendations db now user_id limit force_refresh).2 := by
  unfold compute_recommendations
  cases hco : cache_hit_result db now user_id limit force_refresh with
  | none =>
    constructor
    · show ((recompute db now user_id limit).1.map Track.id).Nodup
      rw [recompute_fst_map_id]
      exact combined_ids_nodup ..
    · show CacheNodup (recompute db now user_id limit).2
      intro c hc
      rcases mem_upsert_cache _ _ _ _ c hc with h | h
      · exact hinv c h
      · rw [h]
        simpa using combined_ids_nodup db now user_id limit
  | some tracks =>
    rcases cache_hit_result_spec _ _ _ _ _ _ hco with ⟨c, hfind, _, _, _, htr⟩
    subst htr
    refine ⟨?_, hinv⟩
    have hnod : (c.recommendations.getD []).Nodup :=
      hinv c (List.mem_of_find?_eq_some hfind)
    rw [map_id_load_tracks _ _ (fun tid h => take_filter_existing_all_exist db _ limit tid h)]
    exact List.Nodup.sublist (List.take_sublist _ _) (hnod.filter _)

/-- Witness for C3: concrete call on `wDB1`, whose empty cache trivially
satisfies the invariant. -/
theorem C3_no_duplicates_witness :
    ((compute_recommendations wDB1 0 9 2 false).1.map Track.id).Nodup ∧
      CacheNodup (compute_recommendations wDB1 0 9 2 false).2 :=
  C3_no_duplicates wDB1 0 9 2 false (by intro c hc; cases hc)

/-- C10: after a recompute-path call (no cache row, stale row, forced
refresh, or cached ids filtered to empty — all the cases where
`cache_hit_result` is `none`), under the unique-key constraint of the cache
table: exactly one cache row of the user exists; the user lookup returns a
row whose stored ids equal, in order, the ids of the returned tracks and
whose `generated_at` is the time of this computation; rows of other users
are untouched; and the table grew only if the user had no row (update in
place versus insert, never a duplicate). -/
theorem C10_cache_upsert (db : DB) (now : Int) (user_id limit : Nat)
    (force_refresh : Bool) (huniq : CacheKeyUnique db)
    (hmiss : cache_hit_result db now user_id limit force_refresh = none) :
    (((compute_recommendations db now user_id limit force_refresh).2).cache.filter
        (fun r => r.user_id == user_id)).length = 1 ∧
      ((compute_recommendations db now user_id limit force_refresh).2).cache.find?
          (fun r => r.user_id == user_id) =
        some ⟨user_id,
          some ((compute_recommendations db now user_id limit force_refresh).1.map Track.id),
          now⟩ ∧
      ((compute_recommendations db now user_id limit force_refresh).2).cache.filter
          (fun r => !(r.user_id == user_id)) =
        db.cache.filter (fun r => !(r.user_id == user_id)) ∧
      ((compute_recommendations db now user_id limit force_refresh).2).cache.length =
        (if (db.cache.find? (fun r => r.user_id == user_id)).isSome
         then db.cache.length else db.cache.length + 1) := by
  unfold compute_recommendations
  rw [hmiss]
  refine ⟨?_, ?_, ?_, ?_⟩
  · exact filter_self_upsert_cache db.cache user_id _ now huniq
  · show (upsert_cache db.cache user_id (combined_ids db now user_id limit) now).find? _ = _
    rw [show (recompute db now user_id limit).1.map Track.id =
        combined_ids db now user_id limit from recompute_fst_map_id ..]
    exact find?_upsert_cache ..
  · exact filter_other_upsert_cache ..
  · exact length_upsert_cache ..

/-- Witness for C10: `wDB1` has no cache row for user 9, so the call inserts
exactly one. -/
theorem C10_cache_upsert_witness :
    (((compute_recommendations wDB1 0 9 2 false).2).cache.filter
        (fun r => r.user_id == 9)).length = 1 ∧
      ((compute_recommendations wDB1 0 9 2 false).2).cache.find?
          (fun r => r.user_id == 9) =
        some ⟨9, some ((compute_recommendations wDB1 0 9 2 false).1.map Track.id), 0⟩ ∧
      ((compute_recommendations wDB1 0 9 2 false).2).cache.filter
          (fun r => !(r.user_id == 9)) =
        wDB1.cache.filter (fun r => !(r.user_id == 9)) ∧
      ((compute_recommendations wDB1 0 9 2 false).2).cache.length =
        (if (wDB1.cache.find? (fun r => r.user_id == 9)).isSome
         then wDB1.cache.length else wDB1.cache.length + 1) :=
  C10_cache_upsert wDB1 0 9 2 false List.nodup_nil (by decide)

/-! ### Priority of the seeded source over the popular source -/

/-- Positional core of the priority argument: in a list of the form
`c1 ++ rest` where `c1` holds exactly the absorbed seeded ids and `rest` is
disjoint from them, after filtering and clipping every surviving seeded id
sits strictly before every surviving non-seeded id. -/
theorem priority_core (limit : Nat) (c1 rest : List Nat) (P : Nat → Bool)
    (seeded : List Nat) (s p : Nat)
    (hc1sub : ∀ x ∈ c1, x ∈ seeded)
    (hall : ∀ x ∈ seeded, x ∈ c1)
    (hrest : ∀ e ∈ rest, e ∉ c1)
    (hs : s ∈ seeded) (hp : p ∉ seeded)
    (hsc : s ∈ ((c1 ++ rest).filter P).take limit)
    (hpc : p ∈ ((c1 ++ rest).filter P).take limit) :
    (((c1 ++ rest).filter P).take limit).indexOf s <
      (((c1 ++ rest).filter P).take limit).indexOf p := by
  rw [List.filter_append, List.take_append_eq_append_take] at hsc hpc ⊢
  set F1 := (c1.filter P).take limit with hF1
  set F2 := (rest.filter P).take (limit - (c1.filter P).length) with hF2
  have hF1sub : ∀ x ∈ F1, x ∈ c1 := fun x hx =>
    (List.mem_filter.mp (List.mem_of_mem_take hx)).1
  have hF2sub : ∀ x ∈ F2, x ∈ rest := fun x hx =>
    (List.mem_filter.mp (List.mem_of_mem_take hx)).1
  have hsF1 : s ∈ F1 := by
    rcases List.mem_append.mp hsc with h | h
    · exact h
    · exact absurd (hall s hs) (hrest s (hF2sub s h))
  have hpF1 : p ∉ F1 := fun hc => hp (hc1sub p (hF1sub p hc))
  rw [List.indexOf_append_of_mem hsF1, List.indexOf_append_of_not_mem hpF1]
  have h1 : F1.indexOf s < F1.length := List.indexOf_lt_length.mpr hsF1
  omega

/-- The priority argument over the full blending chain of
`compute_recommendations`, stated by equations so it can be instantiated
with the definitional chain of `blended_ids`. -/
theorem blend_chain_priority (limit : Nat)
    (seeded popular recent c1 c2 c3 combined : List Nat)
    (P : Nat → Bool) (s p : Nat)
    (h1 : c1 = blendLoop limit [] seeded)
    (h2 : c2 = if c1.length < limit then blendLoop limit c1 popular else c1)
    (h3 : c3 = if c2.length < limit then blendLoop limit c2 recent else c2)
    (h4 : combined = (c3.filter P).take limit)
    (hs : s ∈ seeded) (hp : p ∉ seeded)
    (hsc : s ∈ combined) (hpc : p ∈ combined) :
    combined.indexOf s < combined.indexOf p := by
  subst h1; subst h2; subst h3; subst h4
  by_cases hlen : (blendLoop limit [] seeded).length < limit
  · have hall : ∀ x ∈ seeded, x ∈ blendLoop limit [] seeded :=
      blendLoop_complete limit seeded [] hlen
    rw [if_pos hlen] at hsc hpc ⊢
    rcases blendLoop_append limit popular (blendLoop limit [] seeded) with ⟨ex2, hb2, hex2⟩
    rw [hb2] at hsc hpc ⊢
    by_cases hlen2 : ((blendLoop limit [] seeded) ++ ex2).length < limit
    · rw [if_pos hlen2] at hsc hpc ⊢
      rcases blendLoop_append limit recent ((blendLoop limit [] seeded) ++ ex2) with ⟨ex3, hb3, hex3⟩
      rw [hb3, List.append_assoc] at hsc hpc ⊢
      refine priority_core limit _ _ P seeded s p (blendLoop_subset limit seeded) hall
        ?_ hs hp hsc hpc
      intro e he
      rcases List.mem_append.mp he with h | h
      · exact (hex2 e h).2
      · exact fun hc => (hex3 e h).2 (List.mem_append_left _ hc)
    · rw [if_neg hlen2] at hsc hpc ⊢
      exact priority_core limit _ _ P seeded s p (blendLoop_subset limit seeded) hall
        (fun e he => (hex2 e he).2) hs hp hsc hpc
  · rw [if_neg hlen, if_neg hlen] at hsc hpc ⊢
    exact absurd (blendLoop_subset limit seeded p
      (List.mem_filter.mp (List.mem_of_mem_take hpc)).1) hp

/-- C4: on the recompute path the blending consults seeded, then popular,
then recent ids, each only while the result is underfilled, keeping first
occurrences (this is the definition of `blended_ids`); consequently a seeded
candidate and a popular candidate that both survive into the result — the
popular one not itself seeded — appear with the seeded one strictly first. -/
theorem C4_priority_order (db : DB) (now : Int) (user_id limit : Nat)
    (force_refresh : Bool) (s p : Nat)
    (hmiss : cache_hit_result db now user_id limit force_refresh = none)
    (hs : s ∈ seeded_ids db now user_id limit)
    (hp : p ∈ fetch_popular_tracks db limit)
    (hpns : p ∉ seeded_ids db now user_id limit)
    (hsr : s ∈ (compute_recommendations db now user_id limit force_refresh).1.map Track.id)
    (hpr : p ∈ (compute_recommendations db now user_id limit force_refresh).1.map Track.id) :
    ((compute_recommendations db now user_id limit force_refresh).1.map Track.id).indexOf s <
      ((compute_recommendations db now user_id limit force_refresh).1.map Track.id).indexOf p := by
  have hres : (compute_recommendations db now user_id limit force_refresh).1.map Track.id =
      combined_ids db now user_id limit := by
    unfold compute_recommendations
    rw [hmiss]
    exact recompute_fst_map_id ..
  rw [hres] at hsr hpr ⊢
  exact blend_chain_priority limit (seeded_ids db now user_id limit)
    (fetch_popular_tracks db limit) (recent_query db limit)
    (blendLoop limit [] (seeded_ids db now user_id limit))
    (if (blendLoop limit [] (seeded_ids db now user_id limit)).length < limit
      then blendLoop limit (blendLoop limit [] (seeded_ids db now user_id limit))
        (fetch_popular_tracks db limit)
      else blendLoop limit [] (seeded_ids db now user_id limit))
    (blended_ids db now user_id limit)
    (combined_ids db now user_id limit)
    (fun tid => db.tracks.any (fun t => t.id == tid)) s p
    rfl rfl rfl rfl hs hpns hsr hpr

/-- Witness for C4: on `wDB1`, track 1 is seeded (user 9 played artist 1),
track 2 is popular but not seeded, both survive, and 1 precedes 2. -/
theorem C4_priority_order_witness :
    ((compute_recommendations wDB1 0 9 2 false).1.map Track.id).indexOf 1 <
      ((compute_recommendations wDB1 0 9 2 false).1.map Track.id).indexOf 2 :=
  C4_priority_order wDB1 0 9 2 false 1 2 (by decide) (by decide) (by decide)
    (by decide) (by decide) (by decide)

/-! ### Cache freshness and the empty-filter fallthrough -/

/-- A cache row of user 7 holding only the id of a deleted track, written at
time 0. -/
def wRow5 : CacheRow := ⟨7, some [1], 0⟩

/-- Catalog holding only track 2; user 7 has a fresh cache row whose every id
was deleted from the catalog. -/
def wDB5 : DB := { tracks := [wTrack2], history := [], cache := [wRow5] }

/-- Counterexample to C5 as stated: on `wDB5` at time 0 the cache row of
user 7 is fresh and the call is unforced, yet the call does not return the
existence-filtered, clipped cached ids (which are empty) — it runs the full
pipeline, returns track 2 and rewrites the cache row. -/
theorem C5_counterexample :
    is_cache_fresh 0 wRow5.generated_at = true ∧
      (filter_existing_tracks wDB5 (wRow5.recommendations.getD [])).take 1 = [] ∧
      (compute_recommendations wDB5 0 7 1 false).1.map Track.id = [2] ∧
      (compute_recommendations wDB5 0 7 1 false).2 ≠ wDB5 := by
  refine ⟨by decide, by decide, by decide, by decide⟩

/-- A fresh cache row of user 7 holding tracks 2 and 1, written at time 100. -/
def wRow3 : CacheRow := ⟨7, some [2, 1], 100⟩

/-- Catalog with both tracks and a cache row of user 7. -/
def wDB3 : DB := { tracks := [wTrack1, wTrack2], history := [], cache := [wRow3] }

/-- C5 amended: staleness is a pure function of `now - generated_at` against
the fixed 60-minute TTL.  (i) An unforced call whose cache row is under 60
minutes old returns the existence-filtered, clipped cached ids without
running the pipeline or changing the database — provided that filtered list
is non-empty (`C5_counterexample` shows this proviso is forced).  (ii) An
unforced call whose row is over 60 minutes old runs the recompute branch and
stamps the rewritten row with `generated_at = now`.  (iii) A forced call
always runs the recompute branch, regardless of elapsed time. -/
theorem C5_ttl_staleness (db : DB) (now : Int) (user_id limit : Nat)
    (c : CacheRow)
    (hfind : db.cache.find? (fun r => r.user_id == user_id) = some c) :
    (now - c.generated_at < minutesToSeconds 60 →
      (filter_existing_tracks db (c.recommendations.getD [])).take limit ≠ [] →
      compute_recommendations db now user_id limit false =
        (load_tracks_ordered db
          ((filter_existing_tracks db (c.recommendations.getD [])).take limit), db)) ∧
    (minutesToSeconds 60 < now - c.generated_at →
      compute_recommendations db now user_id limit false =
          recompute db now user_id limit ∧
        ((recompute db now user_id limit).2).cache.find?
            (fun r => r.user_id == user_id) =
          some ⟨user_id, some ((recompute db now user_id limit).1.map Track.id), now⟩) ∧
    compute_recommendations db now user_id limit true =
      recompute db now user_id limit := by
  refine ⟨?_, ?_, ?_⟩
  · intro hage hne
    have hfresh : is_cache_fresh now c.generated_at = true := by
      simp only [is_cache_fresh, minutesToSeconds, CACHE_TTL_MINUTES,
        decide_eq_true_eq] at hage ⊢
      omega
    have hhit : cache_hit_result db now user_id limit false =
        some (load_tracks_ordered db
          ((filter_existing_tracks db (c.recommendations.getD [])).take limit)) := by
      unfold cache_hit_result
      rw [hfind]
      simp [hfresh, hne]
    unfold compute_recommendations
    rw [hhit]
  · intro hage
    have hfresh : is_cache_fresh now c.generated_at = false := by
      simp only [minutesToSeconds] at hage
      simp only [is_cache_fresh, minutesToSeconds, CACHE_TTL_MINUTES]
      simp only [decide_eq_false_iff_not]
      omega
    have hhit : cache_hit_result db now user_id limit false = none := by
      unfold cache_hit_result
      rw [hfind]
      simp [hfresh]
    constructor
    · unfold compute_recommendations
      rw [hhit]
    · rw [recompute_fst_map_id]
      exact find?_upsert_cache ..
  · have hhit : cache_hit_result db now user_id limit true = none := by
      unfold cache_hit_result
      rw [hfind]
      simp
    unfold compute_recommendations
    rw [hhit]

/-- Witness for the amended C5: the fresh-hit clause at time 200, the stale
clause at time 10000, and the forced clause, all on `wDB3`. -/
theorem C5_ttl_staleness_witness :
    compute_recommendations wDB3 200 7 2 false =
      (load_tracks_ordered wDB3
        ((filter_existing_tracks wDB3 (wRow3.recommendations.getD [])).take 2), wDB3) ∧
    compute_recommendations wDB3 10000 7 2 false = recompute wDB3 10000 7 2 ∧
    compute_recommendations wDB3 200 7 2 true = recompute wDB3 200 7 2 :=
  ⟨(C5_ttl_staleness wDB3 200 7 2 wRow3 (by decide)).1 (by decide) (by decide),
   ((C5_ttl_staleness wDB3 10000 7 2 wRow3 (by decide)).2.1 (by decide)).1,
   (C5_ttl_staleness wDB3 200 7 2 wRow3 (by decide)).2.2⟩

/-- C6: on a fresh unforced hit whose cached ids existence-filter (and clip)
to the empty list, the call is treated as a miss and falls through to full
recomputation — identical value and post-state to the recompute branch — so
whenever recomputation can produce a non-empty list, such a cache row never
yields an empty user-visible result (second conjunct). -/
theorem C6_empty_cache_fallback (db : DB) (now : Int) (user_id limit : Nat)
    (c : CacheRow)
    (hfind : db.cache.find? (fun r => r.user_id == user_id) = some c)
    (hfresh : is_cache_fresh now c.generated_at = true)
    (hempty : (filter_existing_tracks db (c.recommendations.getD [])).take limit = []) :
    compute_recommendations db now user_id limit false =
        recompute db now user_id limit ∧
      ((recompute db now user_id limit).1 ≠ [] →
        (compute_recommendations db now user_id limit false).1 ≠ []) := by
  have hhit : cache_hit_result db now user_id limit false = none := by
    unfold cache_hit_result
    rw [hfind]
    simp [hfresh, hempty]
  have hmain : compute_recommendations db now user_id limit false =
      recompute db now user_id limit := by
    unfold compute_recommendations
    rw [hhit]
  exact ⟨hmain, fun h => by rw [hmain]; exact h⟩

/-- Witness for C6 on `wDB5`: the fresh row of user 7 references only the
deleted track 1, and the call indeed recomputes (returning track 2). -/
theorem C6_empty_cache_fallback_witness :
    compute_recommendations wDB5 0 7 1 false = recompute wDB5 0 7 1 ∧
      ((recompute wDB5 0 7 1).1 ≠ [] →
        (compute_recommendations wDB5 0 7 1 false).1 ≠ []) :=
  C6_empty_cache_fallback wDB5 0 7 1 wRow5 (by decide) (by decide) (by decide)

/-! ### The seeded-tracks producer against the specification wording -/

/-- The `seededTracks` producer exactly as the specification words it: tracks
whose artist id is in `artistIds`, ordered by creation time descending,
limited to `limit`; separately, tracks whose genre matches `genres`
case-insensitively, same ordering and limit; the two lists concatenated
(artist matches first), deduplicated preserving first-seen order, clipped to
`limit`.  Unlike the source, the spec wording has no explicit empty-input
guards and phrases the genre test directly as a case-insensitive match. -/
def seededTracksSpec (db : DB) (artist_ids : List Nat) (genres : List String)
    (limit : Nat) : List Nat :=
  let artistMatches := ((sortByKeyDesc Track.created_at
      (db.tracks.filter (fun t => t.artist_id ∈ artist_ids))).take limit).map Track.id
  let genreMatches := ((sortByKeyDesc Track.created_at
      (db.tracks.filter (fun t =>
        match t.genre with
        | some g => genres.any (fun g2 => g2.toLower == g.toLower)
        | none => false))).take limit).map Track.id
  (dedupKeepFirst [] (artistMatches ++ genreMatches)).take limit

/-- C7: the source seeded-tracks producer agrees with the specification
wording on every database state and input — artist matches ordered by
creation time descending and limited, then case-insensitive genre matches
likewise, concatenated, deduplicated first-seen, clipped — and it returns
the empty sequence whenever both seed lists are empty. -/
theorem C7_seeded_tracks (db : DB) (artist_ids : List Nat)
    (genres : List String) (limit : Nat) :
    fetch_seeded_tracks db artist_ids genres limit =
        seededTracksSpec db artist_ids genres limit ∧
      (artist_ids = [] → genres = [] →
        fetch_seeded_tracks db artist_ids genres limit = []) := by
  constructor
  · have hA : (if artist_ids.isEmpty then []
        else seeded_artists_query db artist_ids limit) =
        ((sortByKeyDesc Track.created_at
          (db.tracks.filter (fun t => t.artist_id ∈ artist_ids))).take limit).map Track.id := by
      by_cases h : artist_ids.isEmpty
      · rw [if_pos h]
        have h2 : artist_ids = [] := by simpa using h
        subst h2
        simp [sortByKeyDesc]
      · rw [if_neg h]
        rfl
    have hB : (if genres.isEmpty then []
        else seeded_genres_query db genres limit) =
        ((sortByKeyDesc Track.created_at
          (db.tracks.filter (fun t =>
            match t.genre with
            | some g => genres.any (fun g2 => g2.toLower == g.toLower)
            | none => false))).take limit).map Track.id := by
      by_cases h : genres.isEmpty
      · rw [if_pos h]
        have h2 : genres = [] := by simpa using h
        subst h2
        have hfil : db.tracks.filter (fun t =>
            match t.genre with
            | some g => ([] : List String).any (fun g2 => g2.toLower == g.toLower)
            | none => false) = [] := by
          rw [List.filter_eq_nil_iff]
          intro t _
          cases t.genre <;> simp
        rw [hfil]
        simp [sortByKeyDesc]
      · rw [if_neg h]
        unfold seeded_genres_query
        have hfil : db.tracks.filter (fun t =>
            match t.genre with
            | some g => decide (g.toLower ∈ genres.map String.toLower)
            | none => false) =
            db.tracks.filter (fun t =>
            match t.genre with
            | some g => genres.any (fun g2 => g2.toLower == g.toLower)
            | none => false) := by
          apply List.filter_congr
          intro t _
          cases t.genre with
          | none => rfl
          | some g =>
            show decide (g.toLower ∈ genres.map String.toLower) =
              genres.any (fun g2 => g2.toLower == g.toLower)
            rw [Bool.eq_iff_iff]
            simp only [decide_eq_true_eq, List.any_eq_true, List.mem_map, beq_iff_eq]
        rw [hfil]
    unfold fetch_seeded_tracks seededTracksSpec
    dsimp only
    rw [hA, hB]
  · intro h1 h2
    subst h1
    subst h2
    simp [fetch_seeded_tracks, dedupKeepFirst]

/-- Witness for C7: concrete agreement on `wDB1`, and the empty-seed case
returning the empty list. -/
theorem C7_seeded_tracks_witness :
    fetch_seeded_tracks wDB1 [] [] 2 = seededTracksSpec wDB1 [] [] 2 ∧
      fetch_seeded_tracks wDB1 [] [] 2 = [] :=
  ⟨(C7_seeded_tracks wDB1 [] [] 2).1, (C7_seeded_tracks wDB1 [] [] 2).2 rfl rfl⟩

/-! ### Failure semantics of the store (C8)

The source wraps nothing in `try`; every `db.execute` and the final
`db.commit()` may raise, and the exception propagates to the caller
unmodified.  The model below injects an optional error per store call site;
a site the source skips (empty seed list, already-filled blend, empty id
list) executes no query and therefore cannot raise. -/

/-- One optional injected failure per store call site of
`compute_recommendations`, in source order. -/
structure StoreFaults where
  cacheSelect : Option String := none
  hitFilter : Option String := none
  hitLoad : Option String := none
  prefsArtists : Option String := none
  prefsGenres : Option String := none
  seededArtists : Option String := none
  seededGenres : Option String := none
  popularSelect : Option String := none
  recentSelect : Option String := none
  finalFilter : Option String := none
  commitCache : Option String := none
  finalLoad : Option String := none

/-- No injected failures: the normal behaviour of the store. -/
def noFaults : StoreFaults := {}

/-- A store call site: raises the injected error, unmodified, when the site
executes (`executed` is the guard the source puts in front of the query);
otherwise the call proceeds and the query result is the value the pure
embedding computes. -/
def gateQ (executed : Bool) (f : Option String) : Except String Unit :=
  match f with
  | some e => if executed then .error e else .ok ()
  | none => .ok ()

/-- The recompute branch with the failure behaviour of every store call made
explicit: two preference selects, the two guarded seeded selects, the
popular select, the guarded recent-fallback select, the guarded final
existence filter, the cache-upsert commit, and the guarded final reload.
On success the values are those of `recompute`. -/
def recomputeE (fs : StoreFaults) (db : DB) (now : Int) (user_id limit : Nat) :
    Except String (List Track × DB) := do
  let _ ← gateQ true fs.prefsArtists
  let top_artists := artists_query db now user_id 30 5
  let _ ← gateQ true fs.prefsGenres
  let top_genres := genres_query db now user_id 30 5
  let _ ← gateQ (!top_artists.isEmpty) fs.seededArtists
  let _ ← gateQ (!top_genres.isEmpty) fs.seededGenres
  let seeded := fetch_seeded_tracks db top_artists top_genres limit
  let _ ← gateQ true fs.popularSelect
  let popular := fetch_popular_tracks db limit
  let c1 := blendLoop limit [] seeded
  let c2 := if c1.length < limit then blendLoop limit c1 popular else c1
  let _ ← gateQ (decide (c2.length < limit)) fs.recentSelect
  let c3 := if c2.length < limit then blendLoop limit c2 (recent_query db limit) else c2
  let _ ← gateQ (!c3.isEmpty) fs.finalFilter
  let combined := (filter_existing_tracks db c3).take limit
  let _ ← gateQ true fs.commitCache
  let db2 : DB := { db with cache := upsert_cache db.cache user_id combined now }
  let _ ← gateQ (!combined.isEmpty) fs.finalLoad
  pure (load_tracks_ordered db combined, db2)

/-- `compute_recommendations` with the failure behaviour of the store made
explicit: the initial cache select, then on a fresh hit the guarded
existence filter and the reload, otherwise the recompute branch. -/
def compute_recommendationsE (fs : StoreFaults) (db : DB) (now : Int)
    (user_id limit : Nat) (force_refresh : Bool) :
    Except String (List Track × DB) := do
  let _ ← gateQ true fs.cacheSelect
  match db.cache.find? (fun c => c.user_id == user_id) with
  | some c =>
    if !force_refresh && is_cache_fresh now c.generated_at then do
      let _ ← gateQ (!(c.recommendations.getD []).isEmpty) fs.hitFilter
      let ids := (filter_existing_tracks db (c.recommendations.getD [])).take limit
      if ids.isEmpty then recomputeE fs db now user_id limit
      else do
        let _ ← gateQ true fs.hitLoad
        pure (load_tracks_ordered db ids, db)
    else recomputeE fs db now user_id limit
  | none => recomputeE fs db now user_id limit

/-- Peeling one store call site off a successful run. -/
theorem bind_gateQ_ok {α : Type} (b : Bool) (f : Option String)
    (k : Unit → Except String α) (v : α)
    (h : (gateQ b f >>= k) = .ok v) : k () = .ok v := by
  cases f with
  | none => exact h
  | some e =>
    cases b with
    | true => simp [gateQ, Bind.bind, Except.bind] at h
    | false => exact h

/-- A successful faulty run of the recompute branch returns exactly the pure
recompute result. -/
theorem recomputeE_ok (fs : StoreFaults) (db : DB) (now : Int)
    (user_id limit : Nat) (v : List Track × DB)
    (h : recomputeE fs db now user_id limit = .ok v) :
    v = recompute db now user_id limit := by
  unfold recomputeE at h
  replace h := bind_gateQ_ok _ _ _ _ h
  replace h := bind_gateQ_ok _ _ _ _ h
  replace h := bind_gateQ_ok _ _ _ _ h
  replace h := bind_gateQ_ok _ _ _ _ h
  replace h := bind_gateQ_ok _ _ _ _ h
  replace h := bind_gateQ_ok _ _ _ _ h
  replace h := bind_gateQ_ok _ _ _ _ h
  replace h := bind_gateQ_ok _ _ _ _ h
  replace h := bind_gateQ_ok _ _ _ _ h
  replace h : Except.ok (recompute db now user_id limit) = Except.ok v := h
  exact (Except.ok.inj h).symm

/-- A successful faulty run returns exactly the pure result. -/
theorem computeE_ok (fs : StoreFaults) (db : DB) (now : Int)
    (user_id limit : Nat) (force_refresh : Bool) (v : List Track × DB)
    (h : compute_recommendationsE fs db now user_id limit force_refresh = .ok v) :
    v = compute_recommendations db now user_id limit force_refresh := by
  unfold compute_recommendationsE at h
  replace h := bind_gateQ_ok _ _ _ _ h
  unfold compute_recommendations cache_hit_result
  cases hfind : db.cache.find? (fun c => c.user_id == user_id) with
  | none =>
    rw [hfind] at h
    exact recomputeE_ok _ _ _ _ _ _ h
  | some c =>
    rw [hfind] at h
    simp only [] at h ⊢
    by_cases hfr : (!force_refresh && is_cache_fresh now c.generated_at) = true
    · rw [if_pos hfr] at h
      rw [if_pos hfr]
      replace h := bind_gateQ_ok _ _ _ _ h
      by_cases hids :
          ((filter_existing_tracks db (c.recommendations.getD [])).take limit).isEmpty = true
      · rw [if_pos hids] at h ⊢
        exact recomputeE_ok _ _ _ _ _ _ h
      · rw [if_neg hids] at h ⊢
        replace h := bind_gateQ_ok _ _ _ _ h
        replace h : Except.ok
            (load_tracks_ordered db
              ((filter_existing_tracks db (c.recommendations.getD [])).take limit), db) =
            Except.ok v := h
        exact (Except.ok.inj h).symm
    · rw [if_neg hfr] at h
      rw [if_neg hfr]
      exact recomputeE_ok _ _ _ _ _ _ h

/-- With no injected failures the faulty model runs the pure service. -/
theorem computeE_noFaults (db : DB) (now : Int) (user_id limit : Nat)
    (force_refresh : Bool) :
    compute_recommendationsE noFaults db now user_id limit force_refresh =
      .ok (compute_recommendations db now user_id limit force_refresh) := by
  unfold compute_recommendationsE compute_recommendations cache_hit_result
  cases hfind : db.cache.find? (fun c => c.user_id == user_id) with
  | none => rfl
  | some c =>
    simp only []
    by_cases hfr : (!force_refresh && is_cache_fresh now c.generated_at) = true
    · rw [if_pos hfr, if_pos hfr]
      by_cases hids :
          ((filter_existing_tracks db (c.recommendations.getD [])).take limit).isEmpty = true
      · rw [if_pos hids, if_pos hids]
        rfl
      · rw [if_neg hids, if_neg hids]
        rfl
    · rw [if_neg hfr, if_neg hfr]
      rfl

/-- A commit failure on the recompute path surfaces as exactly the raised
error. -/
theorem computeE_commit_fault (db : DB) (now : Int) (user_id limit : Nat)
    (force_refresh : Bool) (e : String)
    (hmiss : cache_hit_result db now user_id limit force_refresh = none) :
    compute_recommendationsE { commitCache := some e } db now user_id limit
      force_refresh = .error e := by
  have hrec : recomputeE { commitCache := some e } db now user_id limit = .error e := rfl
  unfold compute_recommendationsE
  unfold cache_hit_result at hmiss
  cases hfind : db.cache.find? (fun c => c.user_id == user_id) with
  | none => exact hrec
  | some c =>
    rw [hfind] at hmiss
    simp only [] at hmiss ⊢
    by_cases hfr : (!force_refresh && is_cache_fresh now c.generated_at) = true
    · rw [if_pos hfr] at hmiss
      rw [if_pos hfr]
      by_cases hids :
          ((filter_existing_tracks db (c.recommendations.getD [])).take limit).isEmpty = true
      · rw [if_pos hids]
        exact hrec
      · rw [if_neg hids] at hmiss
        cases hmiss
    · rw [if_neg hfr]
      exact hrec

/-- C8: store failures are hard failures of the whole request.  First
conjunct: with no failure injected, the faulty model returns exactly the
pure result (which includes the cache write).  Second conjunct: under any
injected failures the call either surfaces an error or returns exactly the
pure computed-and-cached result — there is no partial success.  Third
conjunct: a commit failure during a recompute-path call surfaces as exactly
the raised error, so the caller never receives a computed-but-uncached
list. -/
theorem C8_persistence_failure (fs : StoreFaults) (db : DB) (now : Int)
    (user_id limit : Nat) (force_refresh : Bool) :
    compute_recommendationsE noFaults db now user_id limit force_refresh =
        .ok (compute_recommendations db now user_id limit force_refresh) ∧
      ((∃ e, compute_recommendationsE fs db now user_id limit force_refresh =
          .error e) ∨
        compute_recommendationsE fs db now user_id limit force_refresh =
          .ok (compute_recommendations db now user_id limit force_refresh)) ∧
      (∀ e, cache_hit_result db now user_id limit force_refresh = none →
        compute_recommendationsE { commitCache := some e } db now user_id limit
          force_refresh = .error e) := by
  refine ⟨computeE_noFaults .., ?_, fun e hmiss => computeE_commit_fault db now user_id limit force_refresh e hmiss⟩
  cases hx : compute_recommendationsE fs db now user_id limit force_refresh with
  | error e => exact Or.inl ⟨e, rfl⟩
  | ok v =>
    right
    rw [computeE_ok fs db now user_id limit force_refresh v hx]

/-- Witness for C8: on `wDB1` the no-fault run returns the pure result, and
an injected commit failure surfaces as that exact error. -/
theorem C8_persistence_failure_witness :
    compute_recommendationsE noFaults wDB1 0 9 2 false =
        .ok (compute_recommendations wDB1 0 9 2 false) ∧
      compute_recommendationsE { commitCache := some "db down" } wDB1 0 9 2 false =
        .error "db down" :=
  ⟨(C8_persistence_failure noFaults wDB1 0 9 2 false).1,
   (C8_persistence_failure noFaults wDB1 0 9 2 false).2.2 "db down" (by decide)⟩

/-! ### Determinism analysis (C9)

The ordered reads of the service are SQL `ORDER BY ... DESC` queries with no
secondary sort key: the relative order of rows with equal keys is chosen by
the data store, not by the service.  `ComputesRel` captures exactly the
executions SQL semantics permits; the pure embedding realises one of them. -/

/-- `out` is a valid result of `ORDER BY key DESC` over rows `l`: some
permutation of `l` that is non-increasing in `key`. -/
def SortedDescOn {α : Type} (key : α → Int) (l out : List α) : Prop :=
  l.Perm out ∧ out.Pairwise (fun a b => key b ≤ key a)

/-- Valid results of `GROUP BY ... ORDER BY COUNT(*) DESC LIMIT n`. -/
def TopCountedRel {α : Type} [DecidableEq α] (rows : List α) (n : Nat)
    (out : List α) : Prop :=
  ∃ sorted,
    SortedDescOn (fun k => (rows.count k : Int)) (dedupKeepFirst [] rows) sorted ∧
    out = sorted.take n

/-- Valid results of a track select ordered by `key` descending, limited and
projected to ids. -/
def SortSelectRel (key : Track → Int) (rows : List Track) (limit : Nat)
    (out : List Nat) : Prop :=
  ∃ sorted, SortedDescOn key rows sorted ∧ out = (sorted.take limit).map Track.id

/-- Valid seed pairs of `_fetch_recent_user_preferences`. -/
def PrefsRel (db : DB) (now : Int) (user_id : Nat)
    (out : List Nat × List String) : Prop :=
  ∃ ta tg,
    TopCountedRel ((recent_joined db now user_id 30).map Track.artist_id) 5 ta ∧
    TopCountedRel ((recent_joined db now user_id 30).filterMap Track.genre) 5 tg ∧
    out = (ta, tg.filter (fun g => !(g == "")))

/-- Valid outputs of `_fetch_seeded_tracks`. -/
def SeededRel (db : DB) (artist_ids : List Nat) (genres : List String)
    (limit : Nat) (out : List Nat) : Prop :=
  ∃ pa pg,
    (if artist_ids.isEmpty then pa = []
     else SortSelectRel Track.created_at
       (db.tracks.filter (fun t => t.artist_id ∈ artist_ids)) limit pa) ∧
    (if genres.isEmpty then pg = []
     else SortSelectRel Track.created_at
       (db.tracks.filter (fun t =>
         match t.genre with
         | some g => g.toLower ∈ genres.map String.toLower
         | none => false)) limit pg) ∧
    out = (dedupKeepFirst [] (pa ++ pg)).take limit

/-- The executions of `compute_recommendations` that SQL semantics permits,
projected to the returned track list.  The cache-hit branch runs no ordered
query and is deterministic; the recompute branch existentially quantifies
the tie order of every sorted read, then runs the deterministic blend,
existence filter, clip and ordered reload of the source. -/
def ComputesRel (db : DB) (now : Int) (user_id limit : Nat)
    (force_refresh : Bool) (result : List Track) : Prop :=
  match cache_hit_result db now user_id limit force_refresh with
  | some tracks => result = tracks
  | none =>
    ∃ prefs seeded popular recentIds,
      PrefsRel db now user_id prefs ∧
      SeededRel db prefs.1 prefs.2 limit seeded ∧
      TopCountedRel (db.history.map PlaybackHistory.track_id) (limit * 2) popular ∧
      (let c1 := blendLoop limit [] seeded
       let c2 := if c1.length < limit then blendLoop limit c1 popular else c1
       ((c2.length < limit →
          SortSelectRel Track.created_at db.tracks limit recentIds) ∧
        (let c3 := if c2.length < limit then blendLoop limit c2 recentIds else c2
         result = load_tracks_ordered db ((filter_existing_tracks db c3).take limit))))

/-- The stable sort of the embedding is one valid `ORDER BY key DESC`
execution. -/
theorem sortedDescOn_sortByKeyDesc {α : Type} (key : α → Int) (l : List α) :
    SortedDescOn key l (sortByKeyDesc key l) := by
  constructor
  · exact (List.perm_insertionSort _ l).symm
  · haveI ht : IsTotal α (fun a b => key b ≤ key a) :=
      ⟨fun a b => Int.le_total (key b) (key a)⟩
    haveI htr : IsTrans α (fun a b => key b ≤ key a) :=
      ⟨fun a b c h1 h2 => le_trans h2 h1⟩
    exact List.sorted_insertionSort _ l

/-- The grouped-and-counted query of the embedding is one valid execution. -/
theorem topCountedRel_topCounted {α : Type} [DecidableEq α] (rows : List α)
    (n : Nat) : TopCountedRel rows n (topCounted rows n) :=
  ⟨sortByKeyDesc (fun k => (rows.count k : Int)) (dedupKeepFirst [] rows),
   sortedDescOn_sortByKeyDesc .., rfl⟩

/-- The preference seeds of the embedding are one valid execution. -/
theorem prefsRel_fetch (db : DB) (now : Int) (user_id : Nat) :
    PrefsRel db now user_id (fetch_recent_user_preferences db now user_id) :=
  ⟨artists_query db now user_id 30 5,
   topCounted ((recent_joined db now user_id 30).filterMap Track.genre) 5,
   topCountedRel_topCounted .., topCountedRel_topCounted .., rfl⟩

/-- The seeded tracks of the embedding are one valid execution. -/
theorem seededRel_fetch (db : DB) (artist_ids : List Nat)
    (genres : List String) (limit : Nat) :
    SeededRel db artist_ids genres limit
      (fetch_seeded_tracks db artist_ids genres limit) := by
  refine ⟨if artist_ids.isEmpty then []
      else seeded_artists_query db artist_ids limit,
    if genres.isEmpty then [] else seeded_genres_query db genres limit,
    ?_, ?_, rfl⟩
  · by_cases h : artist_ids.isEmpty
    · rw [if_pos h, if_pos h]
    · rw [if_neg h, if_neg h]
      exact ⟨_, sortedDescOn_sortByKeyDesc .., rfl⟩
  · by_cases h : genres.isEmpty
    · rw [if_pos h, if_pos h]
    · rw [if_neg h, if_neg h]
      exact ⟨_, sortedDescOn_sortByKeyDesc .., rfl⟩

/-- C9 amended: the pipeline itself introduces no nondeterminism beyond the
tie order of the store's sorted reads — every run of the deterministic
embedding (the pipeline with the tie order fixed by stored row order) is a
valid execution of the SQL semantics of the source; `C9_counterexample`
shows that with play-count ties two valid executions can differ, so
determinism holds only per fixed store tie order. -/
theorem C9_deterministic_refinement (db : DB) (now : Int) (user_id limit : Nat)
    (force_refresh : Bool) :
    ComputesRel db now user_id limit force_refresh
      (compute_recommendations db now user_id limit force_refresh).1 := by
  unfold ComputesRel compute_recommendations
  cases hco : cache_hit_result db now user_id limit force_refresh with
  | some tracks => rfl
  | none =>
    simp only []
    refine ⟨fetch_recent_user_preferences db now user_id,
      seeded_ids db now user_id limit,
      fetch_popular_tracks db limit,
      recent_query db limit,
      prefsRel_fetch .., seededRel_fetch .., topCountedRel_topCounted .., ?_, ?_⟩
    · intro _
      exact ⟨_, sortedDescOn_sortByKeyDesc .., rfl⟩
    · rfl

/-- Two catalog tracks with one recent play each by user 5: a play-count
tie between tracks 1 and 2. -/
def tieDB : DB :=
  { tracks := [wTrack1, wTrack2],
    history := [⟨1, 5, 1, 0⟩, ⟨2, 5, 2, 0⟩],
    cache := [] }

/-- Counterexample to C9 as stated: on `tieDB` with `limit = 1` and a
play-count tie, SQL semantics permits one run that returns track 1 and
another that returns track 2 — the popular query has no secondary sort key,
so the store chooses which tied row comes first and the result depends on
that choice. -/
theorem C9_counterexample :
    ¬ (∀ r1 r2 : List Track,
        ComputesRel tieDB 0 9 1 false r1 → ComputesRel tieDB 0 9 1 false r2 →
          r1 = r2) := by
  intro hdet
  have hmiss : cache_hit_result tieDB 0 9 1 false = none := rfl
  have h1 : ComputesRel tieDB 0 9 1 false [wTrack1] := by
    unfold ComputesRel
    rw [hmiss]
    refine ⟨([], []), [], [1, 2], [],
      ⟨[], [], ⟨[], ⟨by decide, by decide⟩, by decide⟩,
        ⟨[], ⟨by decide, by decide⟩, by decide⟩, by decide⟩,
      ⟨[], [], rfl, rfl, by decide⟩,
      ⟨[1, 2], ⟨by decide, by decide⟩, by decide⟩,
      ⟨fun hc => absurd hc (by decide), by decide⟩⟩
  have h2 : ComputesRel tieDB 0 9 1 false [wTrack2] := by
    unfold ComputesRel
    rw [hmiss]
    refine ⟨([], []), [], [2, 1], [],
      ⟨[], [], ⟨[], ⟨by decide, by decide⟩, by decide⟩,
        ⟨[], ⟨by decide, by decide⟩, by decide⟩, by decide⟩,
      ⟨[], [], rfl, rfl, by decide⟩,
      ⟨[2, 1], ⟨by decide, by decide⟩, by decide⟩,
      ⟨fun hc => absurd hc (by decide), by decide⟩⟩
  exact absurd (hdet [wTrack1] [wTrack2] h1 h2) (by decide)

end MusicReco
